import Mathlib

/-!
Verification of the t42-cli authenticated API-client layer.

A shallow embedding, in Lean 4, of the core of the `t42-cli` repository:
the HTTP request pipeline (retry and token-refresh logic from
`internal/api/api.go`), the pagination engine (`getPaginated` and
`parseNextLink`), the eligibility rule engine (`cmd/eligible.go`),
the OAuth callback handler and login flow exit paths (`cmd/auth.go`),
the PKCE generator (`internal/oauth/pkce.go`), and the credential check
(`HasValidCredentials`).

Pure Go functions become Lean functions; the HTTP transport is modelled
as a function from the request index to the transport-level result, so
that the retry/refresh pipeline becomes a deterministic function of the
transport; file and network I/O are abstracted as explicit inputs.
-/

namespace T42

/-! ## String helpers

The Go code uses `strings.Split`, `strings.TrimSpace`, `strings.Trim`
and `strings.Contains`.  Core Lean `String` functions do not reduce in
the kernel, so these are embedded as character-list operations wrapped
back into `String`. -/

/-- Embeds `strings.Split` with a one-character separator, on character lists.
`splitChar sep s` splits `s` at every occurrence of `sep`; the result is
always non-empty. -/
def splitChar (sep : Char) : List Char → List (List Char)
  | [] => [[]]
  | c :: cs =>
    match splitChar sep cs with
    | [] => [[]]
    | h :: t => if c = sep then [] :: h :: t else (c :: h) :: t

/-- Embeds `strings.Split` with a one-character separator, on `String`. -/
def goSplit (s : String) (sep : Char) : List String :=
  (splitChar sep s.toList).map String.mk

/-- Drop the characters satisfying `p` from both ends of a list. -/
def trimBy (p : Char → Bool) (cs : List Char) : List Char :=
  ((cs.dropWhile p).reverse.dropWhile p).reverse

/-- Whitespace test used by `strings.TrimSpace` (ASCII subset; the Link
headers manipulated by the code only contain spaces). -/
def isSpace (c : Char) : Bool :=
  c = ' ' || c = '\t' || c = '\n' || c = '\r'

/-- Embeds `strings.TrimSpace`. -/
def goTrimSpace (s : String) : String :=
  String.mk (trimBy isSpace s.toList)

/-- Embeds `strings.Trim` with an explicit cutset of characters. -/
def goTrim (s : String) (cutset : List Char) : String :=
  String.mk (trimBy (fun c => cutset.contains c) s.toList)

/-- Embeds `strings.Contains` with a one-character needle. -/
def goContainsChar (s : String) (c : Char) : Bool :=
  s.toList.contains c

/-- Split a character list at the first occurrence of the sub-list `sep`:
returns the part before and the part after, or `none` when `sep` does
not occur. -/
def splitFirst (sep : List Char) : List Char → Option (List Char × List Char)
  | [] => if sep.isEmpty then some ([], []) else none
  | c :: cs =>
    if sep.isPrefixOf (c :: cs) then some ([], (c :: cs).drop sep.length)
    else
      match splitFirst sep cs with
      | some (a, b) => some (c :: a, b)
      | none => none

/-! ## HTTP request pipeline (`internal/api/api.go`)

`doRequest` performs one HTTP request with up to `MaxRetries` retries;
`makeRequest` wraps it with the 401 token-refresh step.  The transport
(`httpClient.Do`) is modelled as a function from the index of the
attempt to a transport-level result: either a network error or a
response with a status code. -/

/-- Result of one call of the HTTP transport: a network-level error, or a
response carrying a status code. -/
inductive TransportResult where
  | netErr : TransportResult
  | response (status : Nat) : TransportResult
deriving DecidableEq, Repr

/-- Constant `MaxRetries` from `internal/api/api.go`: the maximum number of
retries for failed requests. -/
def MaxRetries : Nat := 3

/-- The status codes `doRequest` retries on: `resp.StatusCode >= 500 ||
resp.StatusCode == 429`. -/
def retriable (s : Nat) : Bool :=
  decide (500 ≤ s) || decide (s = 429)

/-- Observable behaviour of one `doRequest` call: the number of
transport calls made, the waits performed before retries (in units of
`RetryDelay`, in order), and the outcome — `some s` when a response with
status `s` is returned, `none` when the call returns an error after a
final network failure. -/
structure DoResult where
  requests : Nat
  delays : List Nat
  outcome : Option Nat
deriving DecidableEq, Repr

/-- The retry loop of `doRequest`, starting at attempt number `attempt`
with `remaining` further attempts allowed.  Before each attempt with
`attempt > 0` the code waits `RetryDelay * attempt`; a network error or
a retriable status leads to the next attempt; any other response breaks
the loop.  When the attempts are exhausted, the code returns an error if
the last attempt was a network error, and otherwise returns the last
response (even a retriable one). -/
def doRequestGo (transport : Nat → TransportResult) : Nat → Nat → DoResult
  | attempt, 0 =>
    let ds := if attempt = 0 then [] else [attempt]
    match transport attempt with
    | .netErr => ⟨1, ds, none⟩
    | .response s => ⟨1, ds, some s⟩
  | attempt, remaining + 1 =>
    let ds := if attempt = 0 then [] else [attempt]
    match transport attempt with
    | .netErr =>
      let rest := doRequestGo transport (attempt + 1) remaining
      ⟨1 + rest.requests, ds ++ rest.delays, rest.outcome⟩
    | .response s =>
      if retriable s then
        let rest := doRequestGo transport (attempt + 1) remaining
        ⟨1 + rest.requests, ds ++ rest.delays, rest.outcome⟩
      else ⟨1, ds, some s⟩

/-- Function `doRequest` from `internal/api/api.go`: the retry loop runs attempts
`0` through `MaxRetries`. -/
def doRequest (transport : Nat → TransportResult) : DoResult :=
  doRequestGo transport 0 MaxRetries

/-- Outcome of a `makeRequest` call. -/
inductive ApiOutcome where
  | ok (status : Nat) : ApiOutcome
  | netFailure : ApiOutcome
  | refreshFailure : ApiOutcome
deriving DecidableEq, Repr

/-- Observable behaviour of one `makeRequest` call: total transport
calls, number of invocations of the token-refresh callback, the client's
token after the call, and the outcome. -/
structure MakeResult where
  requests : Nat
  refreshes : Nat
  finalToken : String
  outcome : ApiOutcome
deriving DecidableEq, Repr

/-- Function `makeRequest` from `internal/api/api.go`.  The transport now also
sees the bearer token attached to the request.  `refresher` models the
optional `tokenRefresher` callback: `none` when unregistered, otherwise
the result of invoking it.  On a 401 with a registered refresher the
code invokes the refresher once, swaps in the new token and re-runs
`doRequest` exactly once; a refresher error is returned as an error;
any second response (including another 401) is returned as-is. -/
def makeRequest (transport : String → Nat → TransportResult) (token : String)
    (refresher : Option (Except String String)) : MakeResult :=
  let r1 := doRequest (transport token)
  match r1.outcome with
  | none => ⟨r1.requests, 0, token, .netFailure⟩
  | some s =>
    if s = 401 then
      match refresher with
      | none => ⟨r1.requests, 0, token, .ok s⟩
      | some (.error _) => ⟨r1.requests, 1, token, .refreshFailure⟩
      | some (.ok newTok) =>
        let r2 := doRequest (fun n => transport newTok (r1.requests + n))
        match r2.outcome with
        | none => ⟨r1.requests + r2.requests, 1, newTok, .netFailure⟩
        | some s2 => ⟨r1.requests + r2.requests, 1, newTok, .ok s2⟩
    else ⟨r1.requests, 0, token, .ok s⟩

/-- Transport stub that fails twice with 503 then succeeds with 200. -/
def stub503 : Nat → TransportResult :=
  fun n => if n < 2 then .response 503 else .response 200

/-- Transport stub that always returns 404. -/
def stub404 : Nat → TransportResult :=
  fun _ => .response 404

/-- Transport stub (token-aware) that returns 401 on the first request
and 200 on every later request. -/
def stub401then200 : String → Nat → TransportResult :=
  fun _ n => if n = 0 then .response 401 else .response 200

/-- Transport stub (token-aware) that always returns 401. -/
def stub401always : String → Nat → TransportResult :=
  fun _ _ => .response 401

/-! ## Pagination engine (`getPaginated` and `parseNextLink`)

`getPaginated` drains a multi-page listing endpoint by following the
`rel="next"` link of each response's `Link` header until none is
present.  The server is modelled as a function from the requested
path+query to a page (items plus `Link` header).  The Go `for` loop is
embedded with an explicit fuel parameter; the theorems only use enough
fuel to cover the page chain, where the fuel bound is never hit. -/

/-- Models `net/url`'s `Parse` followed by `URL.RequestURI()` for the
URLs appearing in the 42 API's `Link` headers: for an absolute URL the
scheme and host are stripped, keeping path and query; a relative URL is
returned unchanged. -/
def requestURI (s : String) : String :=
  match splitFirst [':', '/', '/'] s.toList with
  | none => s
  | some (_, rest) =>
    match splitFirst ['/'] rest with
    | some (_, path) => String.mk ('/' :: path)
    | none =>
      match splitFirst ['?'] rest with
      | some (_, q) => String.mk ('/' :: '?' :: q)
      | none => "/"

/-- The per-link test and extraction step of `parseNextLink`: split the
trimmed link on `;`; when that yields exactly two parts whose second
trims to `rel="next"`, trim angle brackets off the first part, parse it
and return its request URI. -/
def parseNextLinkScan : List String → String
  | [] => ""
  | link :: restLinks =>
    match goSplit (goTrimSpace link) ';' with
    | [p0, p1] =>
      if goTrimSpace p1 = "rel=\"next\"" then requestURI (goTrim p0 ['<', '>'])
      else parseNextLinkScan restLinks
    | _ => parseNextLinkScan restLinks

/-- Function `parseNextLink` from the API client: extract the URL of the `next`
page from a `Link` header, or return `""` when no `next` link is found. -/
def parseNextLink (linkHeader : String) : String :=
  if linkHeader = "" then ""
  else parseNextLinkScan (goSplit linkHeader ',')

/-- One page served by the (modelled) API: the decoded items of the
response body plus the `Link` response header. -/
structure Page (α : Type) where
  items : List α
  linkHeader : String

/-- The initial URL requested by `getPaginated`: the start path with the
explicit `page[size]=100` parameter appended (after `&` when the path
already has a query, else after `?`). -/
def initialURL (path : String) : String :=
  path ++ (if goContainsChar path '?' then "&" else "?") ++ "page[size]=100"

/-- The `for nextURL != ""` loop of `getPaginated`: fetch the page at
`nextURL`, append its items, and continue at the URL extracted from the
`Link` header.  Returns the accumulated items together with the list of
requested URLs, in order.  `fuel` bounds the number of iterations (the
Go loop has no such bound; all theorems supply enough fuel for the
chain at hand). -/
def getPaginatedGo (server : String → Page α) : Nat → String → List α × List String
  | 0, _ => ([], [])
  | fuel + 1, nextURL =>
    if nextURL = "" then ([], [])
    else
      let p := server nextURL
      let r := getPaginatedGo server fuel (parseNextLink p.linkHeader)
      (p.items ++ r.1, nextURL :: r.2)

/-- Function `getPaginated` from the API client: start at `path` with the
`page[size]=100` parameter appended and drain the next-link chain. -/
def getPaginated (server : String → Page α) (fuel : Nat) (path : String) :
    List α × List String :=
  getPaginatedGo server fuel (initialURL path)

/-- Modelled from the spec: the spec's Pagination Engine drain, which —
unlike `getPaginated` in the source — also stops when the returned page
is shorter than the requested page size (100), in addition to stopping
when the `next` link is absent.  Used to compare the spec's stated stop
condition with the code's. -/
def drainSpecGo (server : String → Page α) : Nat → String → List α × List String
  | 0, _ => ([], [])
  | fuel + 1, nextURL =>
    if nextURL = "" then ([], [])
    else
      let p := server nextURL
      let next := parseNextLink p.linkHeader
      if next = "" ∨ p.items.length < 100 then (p.items, [nextURL])
      else
        let r := drainSpecGo server fuel next
        (p.items ++ r.1, nextURL :: r.2)

/-- Modelled from the spec: spec-side drain starting at `path` with the
page-size parameter appended. -/
def drainSpec (server : String → Page α) (fuel : Nat) (path : String) :
    List α × List String :=
  drainSpecGo server fuel (initialURL path)

/-- Predicate stating that `urls` is the request chain induced by `server`: every URL is
non-empty, the `Link` header of each page points at the following URL in
the list, and the last page has no `next` link. -/
inductive ChainFrom (server : String → Page α) : List String → Prop where
  | last (u : String) (hu : u ≠ "")
      (hn : parseNextLink (server u).linkHeader = "") : ChainFrom server [u]
  | cons (u v : String) (rest : List String) (hu : u ≠ "")
      (hn : parseNextLink (server u).linkHeader = v)
      (hc : ChainFrom server (v :: rest)) : ChainFrom server (u :: v :: rest)

/-- Concrete two-page server whose first page is shorter than the
requested page size (one item) but still carries a `next` link; page
two has one item and no `next` link. -/
def shortPageServer : String → Page Nat :=
  fun u =>
    if u = "/v2/items?page[size]=100" then
      ⟨[0], "<https://api.intra.42.fr/v2/items?page[size]=100&page[number]=2>; rel=\"next\""⟩
    else if u = "/v2/items?page[size]=100&page[number]=2" then
      ⟨[1], ""⟩
    else ⟨[], ""⟩

/-- The two requested URLs of `shortPageServer`'s chain. -/
def paginationChainUrls : List String :=
  ["/v2/items?page[size]=100", "/v2/items?page[size]=100&page[number]=2"]

/-! ## Eligibility rule engine (`cmd/eligible.go`) -/

/-- A project (slug is the only field the eligibility checks read). -/
structure Project where
  slug : String
deriving DecidableEq, Repr

/-- A user's engagement with a project, as read by
`checkForbiddenProjects`: `Status` and the nullable `Validated` flag. -/
structure ProjectUser where
  status : String
  validated : Option Bool
  project : Project
deriving DecidableEq, Repr

/-- A quest (slug only). -/
structure Quest where
  slug : String
deriving DecidableEq, Repr

/-- A user's quest-completion record: `ValidatedAt` is nullable; the
checks only test it against `nil`, so it is modelled as an optional
timestamp. -/
structure QuestUser where
  validatedAt : Option Nat
  quest : Quest
deriving DecidableEq, Repr

/-- The rule definition nested in a project-session rule: `Kind` and
`InternalName` drive the dispatch in `parseInscriptionRules`. -/
structure RuleDefinition where
  kind : String
  internalName : String
deriving DecidableEq, Repr

/-- A parameter of a session rule: the checks read only `Value`. -/
structure RuleParam where
  value : String
deriving DecidableEq, Repr

/-- A rule attached to a project session. -/
structure ProjectSessionRule where
  params : List RuleParam
  rule : RuleDefinition
deriving DecidableEq, Repr

/-- Struct `inscriptionRequirements` from `cmd/eligible.go`. -/
structure InscriptionRequirements where
  requiredQuests : List String
  forbiddenQuests : List String
  forbiddenProjects : List String
deriving DecidableEq, Repr

/-- Function `parseInscriptionRules` from `cmd/eligible.go`: process the rules in
order; skip any rule whose kind is not `"inscription"`; dispatch on the
rule's internal name, appending the rule's parameter values to the
required-quests, forbidden-quests or forbidden-projects bucket; ignore
any other internal name. -/
def parseInscriptionRules : List ProjectSessionRule → InscriptionRequirements
  | [] => ⟨[], [], []⟩
  | r :: rest =>
    let reqs := parseInscriptionRules rest
    if r.rule.kind ≠ "inscription" then reqs
    else if r.rule.internalName = "QuestsValidated" then
      { reqs with requiredQuests := r.params.map (fun p => p.value) ++ reqs.requiredQuests }
    else if r.rule.internalName = "QuestsNotValidated" then
      { reqs with forbiddenQuests := r.params.map (fun p => p.value) ++ reqs.forbiddenQuests }
    else if r.rule.internalName = "NeitherOngoingOrValidated" then
      { reqs with forbiddenProjects := r.params.map (fun p => p.value) ++ reqs.forbiddenProjects }
    else reqs

/-- Following the spec's words, for comparison with
`parseInscriptionRules`: the bucket of parameter values contributed, in
rule order, by the rules of kind `"inscription"` whose internal name is
`name`. -/
def specRuleBucket (name : String) (rules : List ProjectSessionRule) : List String :=
  ((rules.filter fun r => r.rule.kind = "inscription" && r.rule.internalName = name).map
    fun r => r.params.map fun p => p.value).flatten

/-- The "ongoing" statuses tested by `checkForbiddenProjects`. -/
def isOngoing (s : String) : Bool :=
  s = "in_progress" || s = "waiting_for_correction" ||
    s = "creating_group" || s = "searching_a_group"

/-- Function `checkForbiddenProjects` from `cmd/eligible.go`: `true` when the
user does not have any forbidden project ongoing or validated.  With an
empty forbidden list the check passes immediately; otherwise each of the
user's project records whose slug is in the forbidden set fails the
check when its status is `finished` with `Validated` set and true, or
when its status is one of the ongoing statuses. -/
def checkForbiddenProjects (projectUsers : List ProjectUser) (forbidden : List String) : Bool :=
  if forbidden.isEmpty then true
  else projectUsers.all fun pu =>
    if !(forbidden.contains pu.project.slug) then true
    else if pu.status = "finished" && pu.validated = some true then false
    else if isOngoing pu.status then false
    else true

/-- Function `checkRequiredQuests` from `cmd/eligible.go`: `true` when every
required quest slug has a validated completion record. -/
def checkRequiredQuests (questUsers : List QuestUser) (required : List String) : Bool :=
  if required.isEmpty then true
  else required.all fun slug =>
    questUsers.any fun qu => qu.validatedAt.isSome && qu.quest.slug = slug

/-! ## OAuth callback handler (`handleCallback` in `cmd/auth.go`) -/

/-- The query parameters of the one expected callback request.  Go's
`Query().Get` returns `""` for an absent parameter, so absence is the
empty string. -/
structure CallbackRequest where
  code : String
  state : String
  errorParam : String
  errorDescription : String
deriving DecidableEq, Repr

/-- What `handleCallback` does with a request: fail with the provider's
error message, fail on a state mismatch (possible CSRF), fail on a
missing code, or proceed to the token exchange with the given code. -/
inductive CallbackOutcome where
  | providerError (msg : String) : CallbackOutcome
  | stateMismatch : CallbackOutcome
  | missingCode : CallbackOutcome
  | exchange (code : String) : CallbackOutcome
deriving DecidableEq, Repr

/-- The error message built by `handleCallback` when the `error` query
parameter is present: the provider's error, with the description
appended in parentheses when present. -/
def callbackErrorMsg (req : CallbackRequest) : String :=
  if req.errorDescription ≠ "" then
    "OAuth2 error: " ++ req.errorParam ++ " (" ++ req.errorDescription ++ ")"
  else "OAuth2 error: " ++ req.errorParam

/-- Function `handleCallback` from `cmd/auth.go` (decision structure): check the
`error` parameter first, then validate `state` against the generated
state, then require a non-empty `code`, and only then exchange the code
for a token. -/
def handleCallback (req : CallbackRequest) (expectedState : String) : CallbackOutcome :=
  if req.errorParam ≠ "" then .providerError (callbackErrorMsg req)
  else if req.state ≠ expectedState then .stateMismatch
  else if req.code = "" then .missingCode
  else .exchange req.code

/-! ## SHA-256

`internal/oauth/pkce.go` calls `crypto/sha256` from the Go standard
library.  The hash is implemented here directly (FIPS 180-4) over byte
lists, with 32-bit words as `Nat` reduced modulo `2^32`; it matches the
standard test vectors for `""` and `"abc"`. -/

/-- Reduce modulo `2^32`. -/
def w32 (n : Nat) : Nat := n % 4294967296

/-- Rotate a 32-bit word right by `k`. -/
def rotr (k x : Nat) : Nat := w32 (x / 2 ^ k + x % 2 ^ k * 2 ^ (32 - k))

/-- Shift a 32-bit word right by `k`. -/
def shr (k x : Nat) : Nat := x / 2 ^ k

/-- Bitwise complement of a 32-bit word. -/
def bnot32 (x : Nat) : Nat := Nat.xor x 4294967295

/-- SHA-256 `Ch` function. -/
def ch (x y z : Nat) : Nat := Nat.xor (Nat.land x y) (Nat.land (bnot32 x) z)

/-- SHA-256 `Maj` function. -/
def maj (x y z : Nat) : Nat :=
  Nat.xor (Nat.xor (Nat.land x y) (Nat.land x z)) (Nat.land y z)

/-- SHA-256 `Σ0`. -/
def bigSigma0 (x : Nat) : Nat := Nat.xor (Nat.xor (rotr 2 x) (rotr 13 x)) (rotr 22 x)

/-- SHA-256 `Σ1`. -/
def bigSigma1 (x : Nat) : Nat := Nat.xor (Nat.xor (rotr 6 x) (rotr 11 x)) (rotr 25 x)

/-- SHA-256 `σ0`. -/
def smallSigma0 (x : Nat) : Nat := Nat.xor (Nat.xor (rotr 7 x) (rotr 18 x)) (shr 3 x)

/-- SHA-256 `σ1`. -/
def smallSigma1 (x : Nat) : Nat := Nat.xor (Nat.xor (rotr 17 x) (rotr 19 x)) (shr 10 x)

/-- The 64 SHA-256 round constants. -/
def shaK : List Nat :=
  [1116352408, 1899447441, 3049323471, 3921009573, 961987163,
   1508970993, 2453635748, 2870763221, 3624381080, 310598401,
   607225278, 1426881987, 1925078388, 2162078206, 2614888103,
   3248222580, 3835390401, 4022224774, 264347078, 604807628,
   770255983, 1249150122, 1555081692, 1996064986, 2554220882,
   2821834349, 2952996808, 3210313671, 3336571891, 3584528711,
   113926993, 338241895, 666307205, 773529912, 1294757372,
   1396182291, 1695183700, 1986661051, 2177026350, 2456956037,
   2730485921, 2820302411, 3259730800, 3345764771, 3516065817,
   3600352804, 4094571909, 275423344, 430227734, 506948616,
   659060556, 883997877, 958139571, 1322822218, 1537002063,
   1747873779, 1955562222, 2024104815, 2227730452, 2361852424,
   2428436474, 2756734187, 3204031479, 3329325298]

/-- The eight 32-bit working registers of SHA-256. -/
structure Sha256State where
  a : Nat
  b : Nat
  c : Nat
  d : Nat
  e : Nat
  f : Nat
  g : Nat
  h : Nat
deriving DecidableEq, Repr

/-- The SHA-256 initial hash value. -/
def initState : Sha256State :=
  ⟨1779033703, 3144134277, 1013904242, 2773480762,
   1359893119, 2600822924, 528734635, 1541459225⟩

/-- Append the next word of the SHA-256 message schedule. -/
def scheduleStep (ws : List Nat) : List Nat :=
  let n := ws.length
  ws ++ [w32 (smallSigma1 (ws.getD (n - 2) 0) + ws.getD (n - 7) 0 +
    smallSigma0 (ws.getD (n - 15) 0) + ws.getD (n - 16) 0)]

/-- Extend a 16-word block to the 64-word message schedule. -/
def schedule (block : List Nat) : List Nat :=
  scheduleStep^[48] block

/-- One SHA-256 compression round. -/
def shaRound (st : Sha256State) (kw : Nat × Nat) : Sha256State :=
  let t1 := w32 (st.h + bigSigma1 st.e + ch st.e st.f st.g + kw.1 + kw.2)
  let t2 := w32 (bigSigma0 st.a + maj st.a st.b st.c)
  ⟨w32 (t1 + t2), st.a, st.b, st.c, w32 (st.d + t1), st.e, st.f, st.g⟩

/-- Compress one 16-word block into the state. -/
def compressBlock (st : Sha256State) (block : List Nat) : Sha256State :=
  let r := (shaK.zip (schedule block)).foldl shaRound st
  ⟨w32 (st.a + r.a), w32 (st.b + r.b), w32 (st.c + r.c), w32 (st.d + r.d),
   w32 (st.e + r.e), w32 (st.f + r.f), w32 (st.g + r.g), w32 (st.h + r.h)⟩

/-- A 64-bit length as eight big-endian bytes. -/
def be64 (n : Nat) : List Nat :=
  [n / 2 ^ 56 % 256, n / 2 ^ 48 % 256, n / 2 ^ 40 % 256, n / 2 ^ 32 % 256,
   n / 2 ^ 24 % 256, n / 2 ^ 16 % 256, n / 2 ^ 8 % 256, n % 256]

/-- SHA-256 padding: `0x80`, zeros to 56 mod 64, then the bit length. -/
def padMessage (msg : List Nat) : List Nat :=
  let L := msg.length
  let k := (64 - (L + 9) % 64) % 64
  msg ++ [128] ++ List.replicate k 0 ++ be64 (L * 8)

/-- Big-endian bytes to 32-bit words (groups of four). -/
def bytesToWords : List Nat → List Nat
  | b0 :: b1 :: b2 :: b3 :: rest =>
    (b0 * 2 ^ 24 + b1 * 2 ^ 16 + b2 * 2 ^ 8 + b3) :: bytesToWords rest
  | _ => []

/-- Split a byte list into chunks of 64 bytes. -/
def chunks64 (bs : List Nat) : List (List Nat) :=
  if bs.isEmpty then []
  else bs.take 64 :: chunks64 (bs.drop 64)
termination_by bs.length
decreasing_by
  cases bs with
  | nil => simp_all
  | cons x xs => simp [List.length_drop]; omega

/-- A 32-bit word as four big-endian bytes. -/
def wordBytes (w : Nat) : List Nat :=
  [w / 2 ^ 24 % 256, w / 2 ^ 16 % 256, w / 2 ^ 8 % 256, w % 256]

/-- The final SHA-256 state serialized as 32 big-endian bytes. -/
def stateBytes (st : Sha256State) : List Nat :=
  wordBytes st.a ++ wordBytes st.b ++ wordBytes st.c ++ wordBytes st.d ++
    wordBytes st.e ++ wordBytes st.f ++ wordBytes st.g ++ wordBytes st.h

/-- SHA-256 of a byte list. -/
def sha256 (msg : List Nat) : List Nat :=
  stateBytes ((chunks64 (padMessage msg)).foldl
    (fun st block => compressBlock st (bytesToWords block)) initState)

/-! ## Unpadded base64url and the PKCE generator
(`internal/oauth/pkce.go`, `encoding/base64.RawURLEncoding`) -/

/-- The base64url alphabet (RFC 4648 §5). -/
def b64Chars : List Char :=
  ['A', 'B', 'C', 'D', 'E', 'F', 'G', 'H', 'I', 'J', 'K', 'L', 'M',
   'N', 'O', 'P', 'Q', 'R', 'S', 'T', 'U', 'V', 'W', 'X', 'Y', 'Z',
   'a', 'b', 'c', 'd', 'e', 'f', 'g', 'h', 'i', 'j', 'k', 'l', 'm',
   'n', 'o', 'p', 'q', 'r', 's', 't', 'u', 'v', 'w', 'x', 'y', 'z',
   '0', '1', '2', '3', '4', '5', '6', '7', '8', '9', '-', '_']

/-- The character for a 6-bit value. -/
def b64Char (n : Nat) : Char := b64Chars.getD n 'A'

/-- The 6-bit value of a character (its index in the alphabet). -/
def b64Val (c : Char) : Nat := b64Chars.indexOf c

/-- Unpadded base64url encoding (`base64.RawURLEncoding.EncodeToString`):
three input bytes become four characters; a final group of one or two
bytes becomes two or three characters, with no padding. -/
def base64urlEncode : List Nat → List Char
  | [] => []
  | [b0] => [b64Char (b0 / 4), b64Char (b0 % 4 * 16)]
  | [b0, b1] => [b64Char (b0 / 4), b64Char (b0 % 4 * 16 + b1 / 16), b64Char (b1 % 16 * 4)]
  | b0 :: b1 :: b2 :: rest =>
    b64Char (b0 / 4) :: b64Char (b0 % 4 * 16 + b1 / 16) ::
      b64Char (b1 % 16 * 4 + b2 / 64) :: b64Char (b2 % 64) :: base64urlEncode rest

/-- Unpadded base64url decoding, inverse of `base64urlEncode` on byte
lists; used to establish that the encoding is injective. -/
def base64urlDecode : List Char → List Nat
  | c0 :: c1 :: c2 :: c3 :: rest =>
    (b64Val c0 * 4 + b64Val c1 / 16) ::
      (b64Val c1 % 16 * 16 + b64Val c2 / 4) ::
        (b64Val c2 % 4 * 64 + b64Val c3) :: base64urlDecode rest
  | [c0, c1] => [b64Val c0 * 4 + b64Val c1 / 16]
  | [c0, c1, c2] => [b64Val c0 * 4 + b64Val c1 / 16, b64Val c1 % 16 * 16 + b64Val c2 / 4]
  | _ => []

/-- The ASCII bytes of a string (`[]byte(s)` for the ASCII strings the
PKCE generator produces). -/
def asciiBytes (s : String) : List Nat := s.toList.map Char.toNat

/-- Function `generateCodeVerifier` from `internal/oauth/pkce.go`, as a function
of the 64 random bytes drawn from `crypto/rand`: the unpadded base64url
encoding of those bytes. -/
def generateCodeVerifier (randomBytes : List Nat) : String :=
  String.mk (base64urlEncode randomBytes)

/-- Function `generateCodeChallenge` from `internal/oauth/pkce.go`: the unpadded
base64url encoding of the SHA-256 hash of the verifier's ASCII bytes. -/
def generateCodeChallenge (verifier : String) : String :=
  String.mk (base64urlEncode (sha256 (asciiBytes verifier)))

/-- Struct `PKCEParams` from `internal/oauth/pkce.go`. -/
structure PKCEParams where
  codeVerifier : String
  codeChallenge : String
deriving DecidableEq, Repr

/-- Function `GeneratePKCEParams` from `internal/oauth/pkce.go`, as a function of
the random bytes drawn for the verifier. -/
def generatePKCEParams (randomBytes : List Nat) : PKCEParams :=
  let v := generateCodeVerifier randomBytes
  ⟨v, generateCodeChallenge v⟩

/-! ## Login flow exit paths (`runLogin` in `cmd/auth.go`)

After the loopback listener `ln` is bound, `runLogin` blocks on a
`select` with three arms: a credential arriving on `tokenChan`, an error
arriving on `errorChan`, and the 5-minute context timeout.  `ln.Close()`
is the statement directly after the `select`; the `errorChan` and
timeout arms `return` from inside the `select`, before that statement,
and there is no `defer ln.Close()`. -/

/-- Which arm of the `select` in `runLogin` fires. -/
inductive SelectOutcome where
  | tokenReceived : SelectOutcome
  | callbackErrorReceived : SelectOutcome
  | timeoutExpired : SelectOutcome
deriving DecidableEq, Repr

/-- What the flow has done by the time `runLogin` returns: whether
`ln.Close()` was executed, and whether the flow succeeded. -/
structure LoginExit where
  listenerClosed : Bool
  succeeded : Bool
deriving DecidableEq, Repr

/-- The exit behaviour of `runLogin` from the `select` onward, per arm:
the token arm falls through to `ln.Close()` and the success path; the
error arm and the timeout arm return immediately, skipping
`ln.Close()`. -/
def runLoginSelect : SelectOutcome → LoginExit
  | .tokenReceived => ⟨true, true⟩
  | .callbackErrorReceived => ⟨false, false⟩
  | .timeoutExpired => ⟨false, false⟩

/-! ## Credential check (`HasValidCredentials` in the config package) -/

/-- The stored credential record (`Credentials` in the config package
used by `cmd/auth.go`). -/
structure Credentials where
  accessToken : String
  tokenType : String
  expiresIn : Int
  refreshToken : String
  scope : String
  createdAt : Int
deriving DecidableEq, Repr

/-- Function `HasValidCredentials`: load the credentials file (modelled as the
load result, `none` when loading fails) and check that the access token
is non-empty.  No other field is consulted. -/
def HasValidCredentials (loadResult : Option Credentials) : Bool :=
  match loadResult with
  | none => false
  | some creds => creds.accessToken != ""

/-- The token's expiry instant has passed: `created_at + expires_in`
is before `now` (epoch seconds). -/
def credentialsExpired (creds : Credentials) (now : Int) : Prop :=
  creds.createdAt + creds.expiresIn < now

/-- The "already logged in" gate at the top of `runLogin`
(`if config.HasValidCredentials()`). -/
def runLoginAlreadyLoggedIn (loadResult : Option Credentials) : Bool :=
  HasValidCredentials loadResult

/-! ## Theorems -/

/-- The retry loop makes at most `remaining + 1` transport calls. -/
theorem doRequestGo_requests_le (t : Nat → TransportResult) :
    ∀ (remaining attempt : Nat),
      (doRequestGo t attempt remaining).requests ≤ remaining + 1 := by
  intro remaining
  induction remaining with
  | zero => intro attempt; cases h : t attempt <;> simp [doRequestGo, h]
  | succ n ih =>
    intro attempt
    cases h : t attempt with
    | netErr =>
      have := ih (attempt + 1)
      simp [doRequestGo, h]
      omega
    | response s =>
      by_cases hs : retriable s
      · have := ih (attempt + 1)
        simp [doRequestGo, h, hs]
        omega
      · simp [doRequestGo, h, hs]

/-- The waits performed by the retry loop: starting at attempt `k ≥ 1`
they are `k, k+1, …`, one before each transport call; starting at
attempt `0` they are `1, 2, …`, one before each retry. -/
theorem doRequestGo_delays (t : Nat → TransportResult) :
    ∀ (remaining k : Nat),
      (doRequestGo t k remaining).delays =
        if k = 0 then List.range' 1 ((doRequestGo t k remaining).requests - 1)
        else List.range' k (doRequestGo t k remaining).requests := by
  intro remaining
  induction remaining with
  | zero =>
    intro k
    by_cases hk : k = 0
    · subst hk
      cases h : t 0 <;> simp [doRequestGo, h]
    · cases h : t k <;> simp [doRequestGo, h, hk, List.range'_one]
  | succ n ih =>
    intro k
    by_cases hk : k = 0
    · subst hk
      cases h : t 0 with
      | netErr =>
        simp only [doRequestGo, h, if_pos rfl]
        rw [ih 1]
        simp
      | response s =>
        by_cases hs : retriable s
        · simp only [doRequestGo, h, hs, if_true, if_pos rfl]
          rw [ih 1]
          simp
        · simp [doRequestGo, h, hs]
    · cases h : t k with
      | netErr =>
        simp only [doRequestGo, h, hk, if_false]
        rw [ih (k + 1), Nat.add_comm 1 (doRequestGo t (k + 1) n).requests,
          List.range'_succ]
        simp [hk]
      | response s =>
        by_cases hs : retriable s
        · simp only [doRequestGo, h, hs, if_true, hk, if_false]
          rw [ih (k + 1), Nat.add_comm 1 (doRequestGo t (k + 1) n).requests,
            List.range'_succ]
          simp [hk]
        · simp [doRequestGo, h, hs, hk, List.range'_one]

/-- One-step unfolding of the retry loop when attempts remain and the
transport returns a response. -/
theorem doRequestGo_succ_response (t : Nat → TransportResult) (k n s : Nat)
    (h : t k = .response s) :
    doRequestGo t k (n + 1) =
      if retriable s then
        ⟨1 + (doRequestGo t (k + 1) n).requests,
          (if k = 0 then [] else [k]) ++ (doRequestGo t (k + 1) n).delays,
          (doRequestGo t (k + 1) n).outcome⟩
      else ⟨1, if k = 0 then [] else [k], some s⟩ := by
  simp only [doRequestGo, h]

/-- A first response whose status is not retriable ends `doRequest` at
once: one transport call, no waits, that response returned. -/
theorem doRequest_first_nonretriable (t : Nat → TransportResult) (s : Nat)
    (hs : retriable s = false) (ht : t 0 = .response s) :
    doRequest t = ⟨1, [], some s⟩ := by
  show doRequestGo t 0 (2 + 1) = _
  rw [doRequestGo_succ_response t 0 2 s ht]
  simp [hs]

/-- C1: every request is retried on a network failure or a 429/5xx
status, at most `MaxRetries = 3` extra attempts, with waits of
`attempt × RetryDelay` (the waits performed are `1, 2, …` units); a 4xx
status other than 429 is returned after a single request; with a
transport failing twice with 503 then succeeding, `doRequest` returns
the 200 after 3 requests (2 retries, waits 1 and 2); with a transport
returning 404, exactly 1 request is issued. -/
theorem C1_retry_policy :
    (∀ t : Nat → TransportResult, (doRequest t).requests ≤ MaxRetries + 1) ∧
    (∀ t : Nat → TransportResult,
      (doRequest t).delays = List.range' 1 ((doRequest t).requests - 1)) ∧
    (∀ (t : Nat → TransportResult) (s : Nat), 400 ≤ s → s < 500 → s ≠ 429 →
      t 0 = .response s → doRequest t = ⟨1, [], some s⟩) ∧
    doRequest stub503 = ⟨3, [1, 2], some 200⟩ ∧
    doRequest stub404 = ⟨1, [], some 404⟩ := by
  refine ⟨fun t => doRequestGo_requests_le t MaxRetries 0, fun t => ?_,
    fun t s h4 h5 h429 ht => ?_, by decide, by decide⟩
  · simpa using doRequestGo_delays t MaxRetries 0
  · have hr : retriable s = false := by
      simp only [retriable, Bool.or_eq_false_iff, decide_eq_false_iff_not]
      omega
    exact doRequest_first_nonretriable t s hr ht

/-- Witness for C1: the 404 clause at the constant-404 transport. -/
theorem C1_retry_policy_witness :
    (400 ≤ 404 ∧ 404 < 500 ∧ 404 ≠ 429 ∧ stub404 0 = .response 404) ∧
    doRequest stub404 = ⟨1, [], some 404⟩ :=
  ⟨⟨by decide, by decide, by decide, rfl⟩,
    C1_retry_policy.2.2.1 stub404 404 (by decide) (by decide) (by decide) rfl⟩

/-- C2: when the first response is a 401 and a refresh callback is
registered and succeeds, `makeRequest` invokes the callback exactly
once, swaps in the new token, and re-runs `doRequest` exactly once with
it; a second 401 is then returned as-is, with no further refresh; with
a transport returning 401 first and 200 afterwards, `makeRequest`
returns the 200 after 2 requests and 1 refresh. -/
theorem C2_refresh_on_401 :
    (∀ (t : String → Nat → TransportResult) (tok newTok : String),
      t tok 0 = .response 401 →
      makeRequest t tok (some (.ok newTok)) =
        ⟨1 + (doRequest (fun n => t newTok (1 + n))).requests, 1, newTok,
          match (doRequest (fun n => t newTok (1 + n))).outcome with
          | some s2 => .ok s2
          | none => .netFailure⟩) ∧
    (∀ (t : String → Nat → TransportResult) (tok newTok : String),
      t tok 0 = .response 401 → t newTok 1 = .response 401 →
      makeRequest t tok (some (.ok newTok)) = ⟨2, 1, newTok, .ok 401⟩) ∧
    makeRequest stub401then200 "old" (some (.ok "new")) = ⟨2, 1, "new", .ok 200⟩ := by
  have h401 : retriable 401 = false := by decide
  have main : ∀ (t : String → Nat → TransportResult) (tok newTok : String),
      t tok 0 = .response 401 →
      makeRequest t tok (some (.ok newTok)) =
        ⟨1 + (doRequest (fun n => t newTok (1 + n))).requests, 1, newTok,
          match (doRequest (fun n => t newTok (1 + n))).outcome with
          | some s2 => .ok s2
          | none => .netFailure⟩ := by
    intro t tok newTok ht
    have h1 : doRequest (t tok) = ⟨1, [], some 401⟩ :=
      doRequest_first_nonretriable (t tok) 401 h401 ht
    unfold makeRequest
    rw [h1]
    cases h2 : (doRequest (fun n => t newTok (1 + n))).outcome <;> simp [h2]
  refine ⟨main, fun t tok newTok ht ht2 => ?_, ?_⟩
  · have h2 : doRequest (fun n => t newTok (1 + n)) = ⟨1, [], some 401⟩ :=
      doRequest_first_nonretriable _ 401 h401 (by simpa using ht2)
    rw [main t tok newTok ht, h2]
    rfl
  · rw [main stub401then200 "old" "new" rfl]
    have h2 : doRequest (fun n => stub401then200 "new" (1 + n)) = ⟨1, [], some 200⟩ :=
      doRequest_first_nonretriable _ 200 (by decide) rfl
    rw [h2]
    rfl

/-- Witness for C2: the general 401-refresh clause at the stub that
returns 401 once then 200. -/
theorem C2_refresh_on_401_witness :
    (stub401then200 "old" 0 = .response 401) ∧
    makeRequest stub401then200 "old" (some (.ok "new")) =
      ⟨1 + (doRequest (fun n => stub401then200 "new" (1 + n))).requests, 1, "new",
        match (doRequest (fun n => stub401then200 "new" (1 + n))).outcome with
        | some s2 => .ok s2
        | none => .netFailure⟩ :=
  ⟨rfl, C2_refresh_on_401.1 stub401then200 "old" "new" rfl⟩

/-- Draining from the empty URL fetches nothing. -/
theorem getPaginatedGo_empty {α : Type} (server : String → Page α) (fuel : Nat) :
    getPaginatedGo server fuel "" = ([], []) := by
  cases fuel <;> simp [getPaginatedGo]

/-- Draining from the head of a next-link chain returns the
concatenation of the pages' items in chain order and requests exactly
the chain's URLs, in order. -/
theorem getPaginatedGo_chain {α : Type} (server : String → Page α)
    {urls : List String} (hc : ChainFrom server urls) :
    ∀ fuel, urls.length ≤ fuel →
      getPaginatedGo server fuel urls.headI =
        ((urls.map fun v => (server v).items).flatten, urls) := by
  induction hc with
  | last u hu hn =>
    intro fuel hf
    cases fuel with
    | zero => simp at hf
    | succ f =>
      simp only [List.headI]
      simp [getPaginatedGo, hu, hn, getPaginatedGo_empty]
  | cons u v rest hu hn hcr ih =>
    intro fuel hf
    cases fuel with
    | zero => simp at hf
    | succ f =>
      have hf' : (v :: rest).length ≤ f := by simp at hf ⊢; omega
      have hv := ih f hf'
      simp only [List.headI] at hv ⊢
      simp [getPaginatedGo, hu, hn, hv]

/-- The list of requested URLs depends only on the pages' link headers,
never on their items. -/
theorem getPaginatedGo_requests_of_links {α β : Type}
    (s1 : String → Page α) (s2 : String → Page β)
    (hl : ∀ v, (s1 v).linkHeader = (s2 v).linkHeader) :
    ∀ (fuel : Nat) (u : String),
      (getPaginatedGo s1 fuel u).2 = (getPaginatedGo s2 fuel u).2 := by
  intro fuel
  induction fuel with
  | zero => intro u; simp [getPaginatedGo]
  | succ f ih =>
    intro u
    by_cases hu : u = ""
    · simp [getPaginatedGo, hu]
    · simp only [getPaginatedGo, hu, if_false]
      rw [hl u]
      simp [ih]

/-- C3: over a source of `K` pages linked by a `rel="next"` chain,
`getPaginated` returns all items in server order exactly once (the
concatenation of the pages, in chain order), issues exactly `K`
requests — the chain's URLs in order — and, when the chain's URLs are
distinct, never requests any URL twice. -/
theorem C3_pagination_drain {α : Type} (server : String → Page α) (path : String)
    (urls : List String) (fuel : Nat)
    (hc : ChainFrom server urls) (hh : urls.headI = initialURL path)
    (hf : urls.length ≤ fuel) :
    getPaginated server fuel path = ((urls.map fun v => (server v).items).flatten, urls) ∧
    (getPaginated server fuel path).2.length = urls.length ∧
    (urls.Nodup → (getPaginated server fuel path).2.Nodup) := by
  have h := getPaginatedGo_chain server hc fuel hf
  rw [hh] at h
  have hg : getPaginated server fuel path =
      ((urls.map fun v => (server v).items).flatten, urls) := h
  exact ⟨hg, by simp [hg], fun hnd => by simp [hg, hnd]⟩

/-- The server `shortPageServer` serves the two-page chain `paginationChainUrls`. -/
theorem chainFrom_shortPageServer : ChainFrom shortPageServer paginationChainUrls :=
  ChainFrom.cons _ _ _ (by decide) (by decide)
    (ChainFrom.last _ (by decide) (by decide))

/-- Witness for C3: the two-page server. -/
theorem C3_pagination_drain_witness :
    (ChainFrom shortPageServer paginationChainUrls ∧
      paginationChainUrls.headI = initialURL "/v2/items" ∧
      paginationChainUrls.length ≤ 5) ∧
    getPaginated shortPageServer 5 "/v2/items" =
      ((paginationChainUrls.map fun v => (shortPageServer v).items).flatten,
        paginationChainUrls) :=
  ⟨⟨chainFrom_shortPageServer, by decide, by decide⟩,
    (C3_pagination_drain shortPageServer "/v2/items" paginationChainUrls 5
      chainFrom_shortPageServer (by decide) (by decide)).1⟩

/-- Counterexample for C4 as stated: on `shortPageServer` the first
page is shorter than the requested page size (1 item < 100) yet carries
a `next` link; the code's `getPaginated` issues 2 requests, while the
spec's drain (which also stops on a short page) would issue only 1. -/
theorem C4_counterexample :
    (shortPageServer (initialURL "/v2/items")).items.length < 100 ∧
    (getPaginated shortPageServer 5 "/v2/items").2.length = 2 ∧
    (drainSpec shortPageServer 5 "/v2/items").2.length = 1 := by
  refine ⟨by decide, by decide, by decide⟩

/-- C4 (amended): `getPaginated` requests the first page at the start
path with the explicit `page[size]=100` parameter appended, follows each
present `next` link, and stops exactly when the `next` link is absent
(the end of the chain); the lengths of the returned pages never affect
which URLs are requested. -/
theorem C4_next_link_stop :
    (∀ {α β : Type} (s1 : String → Page α) (s2 : String → Page β),
      (∀ v, (s1 v).linkHeader = (s2 v).linkHeader) →
      ∀ (fuel : Nat) (u : String),
        (getPaginatedGo s1 fuel u).2 = (getPaginatedGo s2 fuel u).2) ∧
    (∀ {α : Type} (server : String → Page α) (path : String)
      (urls : List String) (fuel : Nat),
      ChainFrom server urls → urls.headI = initialURL path → urls.length ≤ fuel →
      (getPaginated server fuel path).2 = urls) := by
  refine ⟨fun s1 s2 hl => getPaginatedGo_requests_of_links s1 s2 hl,
    fun server path urls fuel hc hh hf => ?_⟩
  have h := getPaginatedGo_chain server hc fuel hf
  rw [hh] at h
  have hg : getPaginated server fuel path =
      ((urls.map fun v => (server v).items).flatten, urls) := h
  simp [hg]

/-- Witness for C4: the chain clause at the two-page server. -/
theorem C4_next_link_stop_witness :
    (ChainFrom shortPageServer paginationChainUrls ∧
      paginationChainUrls.headI = initialURL "/v2/items" ∧
      paginationChainUrls.length ≤ 5) ∧
    (getPaginated shortPageServer 5 "/v2/items").2 = paginationChainUrls :=
  ⟨⟨chainFrom_shortPageServer, by decide, by decide⟩,
    C4_next_link_stop.2 shortPageServer "/v2/items" paginationChainUrls 5
      chainFrom_shortPageServer (by decide) (by decide)⟩

/-- C5: with a non-empty forbidden-project set, `checkForbiddenProjects`
rejects a candidate exactly when some record for a forbidden project is
ongoing (`in_progress`, `waiting_for_correction`, `creating_group`,
`searching_a_group`) or is finished and validated; a record whose
project is not forbidden never changes the outcome; concretely, a
forbidden project `in_progress` rejects, the same project finished with
`validated = false` is accepted, and an unrelated validated project
does not affect the outcome. -/
theorem C5_forbidden_projects :
    (∀ (pus : List ProjectUser) (forbidden : List String), forbidden ≠ [] →
      (checkForbiddenProjects pus forbidden = false ↔
        ∃ pu ∈ pus, pu.project.slug ∈ forbidden ∧
          (isOngoing pu.status = true ∨
            (pu.status = "finished" ∧ pu.validated = some true)))) ∧
    (∀ (pus : List ProjectUser) (forbidden : List String) (pu : ProjectUser),
      pu.project.slug ∉ forbidden →
      checkForbiddenProjects (pu :: pus) forbidden =
        checkForbiddenProjects pus forbidden) ∧
    checkForbiddenProjects [⟨"in_progress", none, ⟨"old-proj"⟩⟩] ["old-proj"] = false ∧
    checkForbiddenProjects [⟨"finished", some false, ⟨"old-proj"⟩⟩] ["old-proj"] = true ∧
    checkForbiddenProjects
      [⟨"finished", some false, ⟨"old-proj"⟩⟩, ⟨"finished", some true, ⟨"other-proj"⟩⟩]
      ["old-proj"] = true := by
  have inner : ∀ (forbidden : List String) (pu : ProjectUser),
      ((if !(forbidden.contains pu.project.slug) then true
        else if pu.status = "finished" && pu.validated = some true then false
        else if isOngoing pu.status then false
        else true) = false ↔
        pu.project.slug ∈ forbidden ∧
          (isOngoing pu.status = true ∨
            (pu.status = "finished" ∧ pu.validated = some true))) := by
    intro forbidden pu
    by_cases hc : pu.project.slug ∈ forbidden
    · have hcc : forbidden.contains pu.project.slug = true := List.elem_iff.mpr hc
      by_cases hv : pu.status = "finished" ∧ pu.validated = some true
      · simp [hcc, hc, hv]
      · by_cases ho : isOngoing pu.status
        · simp [hcc, hc, ho, hv]
        · simp [hcc, hc, ho, hv]
    · have hcc : forbidden.contains pu.project.slug = false := by
        simp [List.elem_iff, hc]
      simp [hcc, hc]
  refine ⟨fun pus forbidden hne => ?_, fun pus forbidden pu hpu => ?_,
    by decide, by decide, by decide⟩
  · have hemp : forbidden.isEmpty = false := List.isEmpty_eq_false.mpr hne
    simp only [checkForbiddenProjects, hemp, Bool.false_eq_true, if_false]
    rw [List.all_eq_false]
    refine exists_congr fun pu1 => and_congr_right fun _ => ?_
    rw [Bool.not_eq_true]
    exact inner forbidden pu1
  · by_cases hne : forbidden = []
    · simp [checkForbiddenProjects, hne]
    · have hemp : forbidden.isEmpty = false := List.isEmpty_eq_false.mpr hne
      have hcc : forbidden.contains pu.project.slug = false := by
        simp [List.elem_iff, hpu]
      simp [checkForbiddenProjects, hemp, hcc]
      intro _
      exact Or.inl hpu

/-- Witness for C5: the rejection clause at a concrete candidate with a
forbidden project in progress. -/
theorem C5_forbidden_projects_witness :
    ((["old-proj"] : List String) ≠ []) ∧
    (checkForbiddenProjects [⟨"in_progress", none, ⟨"old-proj"⟩⟩] ["old-proj"] = false ↔
      ∃ pu ∈ ([⟨"in_progress", none, ⟨"old-proj"⟩⟩] : List ProjectUser),
        pu.project.slug ∈ (["old-proj"] : List String) ∧
          (isOngoing pu.status = true ∨
            (pu.status = "finished" ∧ pu.validated = some true))) :=
  ⟨by decide, C5_forbidden_projects.1 _ ["old-proj"] (by decide)⟩

/-- C6: parsing inscription requirements keeps only rules of kind
`"inscription"`, sends `QuestsValidated` parameters to the required
quests, `QuestsNotValidated` to the forbidden quests and
`NeitherOngoingOrValidated` to the forbidden projects, ignoring every
other kind or internal name; a list with one rule of each name plus one
non-inscription rule yields one entry per bucket. -/
theorem C6_rule_parsing :
    (∀ rules : List ProjectSessionRule,
      parseInscriptionRules rules =
        ⟨specRuleBucket "QuestsValidated" rules,
          specRuleBucket "QuestsNotValidated" rules,
          specRuleBucket "NeitherOngoingOrValidated" rules⟩) ∧
    parseInscriptionRules
      [⟨[⟨"quest-a"⟩], ⟨"inscription", "QuestsValidated"⟩⟩,
       ⟨[⟨"quest-b"⟩], ⟨"inscription", "QuestsNotValidated"⟩⟩,
       ⟨[⟨"proj-c"⟩], ⟨"inscription", "NeitherOngoingOrValidated"⟩⟩,
       ⟨[⟨"quest-d"⟩], ⟨"correction", "QuestsValidated"⟩⟩] =
      ⟨["quest-a"], ["quest-b"], ["proj-c"]⟩ := by
  refine ⟨fun rules => ?_, by decide⟩
  induction rules with
  | nil => rfl
  | cons r rest ih =>
    by_cases hk : r.rule.kind = "inscription"
    · by_cases h1 : r.rule.internalName = "QuestsValidated"
      · simp [parseInscriptionRules, specRuleBucket, List.filter, hk, h1, ih]
      · by_cases h2 : r.rule.internalName = "QuestsNotValidated"
        · simp [parseInscriptionRules, specRuleBucket, List.filter, hk, h1, h2, ih]
        · by_cases h3 : r.rule.internalName = "NeitherOngoingOrValidated"
          · simp [parseInscriptionRules, specRuleBucket, List.filter, hk, h1, h2, h3, ih]
          · simp [parseInscriptionRules, specRuleBucket, List.filter, hk, h1, h2, h3, ih]
    · simp [parseInscriptionRules, specRuleBucket, List.filter, hk, ih]

/-- C7: the callback handler fails with the provider's error message
when the `error` parameter is present; otherwise a `state` differing
from the generated state fails as a forgery attempt; otherwise a missing
`code` fails; and the token exchange is reached exactly when the state
matches and the code is non-empty (with no `error` parameter). -/
theorem C7_callback_validation :
    (∀ (req : CallbackRequest) (st : String),
      req.errorParam ≠ "" →
      handleCallback req st = .providerError (callbackErrorMsg req)) ∧
    (∀ (req : CallbackRequest) (st : String),
      req.errorParam = "" → req.state ≠ st →
      handleCallback req st = .stateMismatch) ∧
    (∀ (req : CallbackRequest) (st : String),
      req.errorParam = "" → req.state = st → req.code = "" →
      handleCallback req st = .missingCode) ∧
    (∀ (req : CallbackRequest) (st : String),
      (handleCallback req st = .exchange req.code ∧ req.code ≠ "") ↔
        (req.errorParam = "" ∧ req.state = st ∧ req.code ≠ "")) := by
  refine ⟨fun req st he => by simp [handleCallback, he],
    fun req st he hs => by simp [handleCallback, he, hs],
    fun req st he hs hcode => by simp [handleCallback, he, hs, hcode],
    fun req st => ?_⟩
  constructor
  · rintro ⟨hout, hc⟩
    by_cases he : req.errorParam = ""
    · by_cases hs : req.state = st
      · exact ⟨he, hs, hc⟩
      · simp [handleCallback, he, hs] at hout
    · simp [handleCallback, he] at hout
  · rintro ⟨he, hs, hc⟩
    exact ⟨by simp [handleCallback, he, hs, hc], hc⟩

/-- Witness for C7: a callback carrying a provider error. -/
theorem C7_callback_validation_witness :
    ((⟨"", "s1", "access_denied", "the user denied the request"⟩ :
        CallbackRequest).errorParam ≠ "") ∧
    handleCallback ⟨"", "s1", "access_denied", "the user denied the request"⟩ "s1" =
      .providerError
        (callbackErrorMsg ⟨"", "s1", "access_denied", "the user denied the request"⟩) :=
  ⟨by decide,
    C7_callback_validation.1 ⟨"", "s1", "access_denied", "the user denied the request"⟩
      "s1" (by decide)⟩

/-- C9 (code evaluation): contrary to the claim that the listener is
torn down on every exit path, `runLogin` executes `ln.Close()` only when
the token arm of the `select` fires; the callback-error arm and the
5-minute-timeout arm both return with the listener still open. -/
theorem C9_listener_close_paths :
    (runLoginSelect .tokenReceived).listenerClosed = true ∧
    (runLoginSelect .callbackErrorReceived).listenerClosed = false ∧
    (runLoginSelect .timeoutExpired).listenerClosed = false :=
  ⟨rfl, rfl, rfl⟩

/-- C10: `HasValidCredentials` is true exactly when the load succeeds
with a non-empty access token; it reads no other field, so two
credential records with the same access token are judged identically;
in particular credentials whose expiry instant has passed are still
accepted, also by the login command's already-logged-in gate. -/
theorem C10_has_valid_credentials :
    (∀ loadResult : Option Credentials,
      HasValidCredentials loadResult = true ↔
        ∃ creds, loadResult = some creds ∧ creds.accessToken ≠ "") ∧
    (∀ c1 c2 : Credentials, c1.accessToken = c2.accessToken →
      HasValidCredentials (some c1) = HasValidCredentials (some c2)) ∧
    (∀ (creds : Credentials) (now : Int), creds.accessToken ≠ "" →
      credentialsExpired creds now →
      HasValidCredentials (some creds) = true ∧
        runLoginAlreadyLoggedIn (some creds) = true) := by
  refine ⟨fun loadResult => ?_, fun c1 c2 h => ?_, fun creds now hat _ => ?_⟩
  · cases loadResult with
    | none => simp [HasValidCredentials]
    | some c => simp [HasValidCredentials]
  · simp [HasValidCredentials, h]
  · exact ⟨by simp [HasValidCredentials, hat],
      by simp [runLoginAlreadyLoggedIn, HasValidCredentials, hat]⟩

/-- The alphabet map sends each 6-bit value to a distinct character and
its index recovers the value. -/
theorem b64Val_b64Char : ∀ v : Nat, v < 64 → b64Val (b64Char v) = v := by decide

/-- Length of the unpadded base64url encoding: `⌈n · 4 / 3⌉` characters
for `n` input bytes. -/
theorem base64urlEncode_length : ∀ bs : List Nat,
    (base64urlEncode bs).length = (bs.length * 4 + 2) / 3 := by
  intro bs
  induction bs using base64urlEncode.induct with
  | case1 => simp [base64urlEncode]
  | case2 b0 => simp [base64urlEncode]
  | case3 b0 b1 => simp [base64urlEncode]
  | case4 b0 b1 b2 rest ih =>
    simp [base64urlEncode, ih]
    omega

/-- Decoding inverts encoding on byte lists. -/
theorem base64urlDecode_encode : ∀ bs : List Nat, (∀ b ∈ bs, b < 256) →
    base64urlDecode (base64urlEncode bs) = bs := by
  intro bs
  induction bs using base64urlEncode.induct with
  | case1 => intro _; rfl
  | case2 b0 =>
    intro hb
    have h0 : b0 < 256 := hb b0 (by simp)
    simp only [base64urlEncode, base64urlDecode]
    rw [b64Val_b64Char (b0 / 4) (by omega), b64Val_b64Char (b0 % 4 * 16) (by omega)]
    have e0 : b0 / 4 * 4 + b0 % 4 * 16 / 16 = b0 := by omega
    rw [e0]
  | case3 b0 b1 =>
    intro hb
    have h0 : b0 < 256 := hb b0 (by simp)
    have h1 : b1 < 256 := hb b1 (by simp)
    simp only [base64urlEncode, base64urlDecode]
    rw [b64Val_b64Char (b0 / 4) (by omega),
      b64Val_b64Char (b0 % 4 * 16 + b1 / 16) (by omega),
      b64Val_b64Char (b1 % 16 * 4) (by omega)]
    have e0 : b0 / 4 * 4 + (b0 % 4 * 16 + b1 / 16) / 16 = b0 := by omega
    have e1 : (b0 % 4 * 16 + b1 / 16) % 16 * 16 + b1 % 16 * 4 / 4 = b1 := by omega
    rw [e0, e1]
  | case4 b0 b1 b2 rest ih =>
    intro hb
    have h0 : b0 < 256 := hb b0 (by simp)
    have h1 : b1 < 256 := hb b1 (by simp)
    have h2 : b2 < 256 := hb b2 (by simp)
    have hrest : ∀ b ∈ rest, b < 256 := fun b hbm => hb b (by simp [hbm])
    simp only [base64urlEncode, base64urlDecode]
    rw [b64Val_b64Char (b0 / 4) (by omega),
      b64Val_b64Char (b0 % 4 * 16 + b1 / 16) (by omega),
      b64Val_b64Char (b1 % 16 * 4 + b2 / 64) (by omega),
      b64Val_b64Char (b2 % 64) (by omega), ih hrest]
    have e0 : b0 / 4 * 4 + (b0 % 4 * 16 + b1 / 16) / 16 = b0 := by omega
    have e1 : (b0 % 4 * 16 + b1 / 16) % 16 * 16 + (b1 % 16 * 4 + b2 / 64) / 4 = b1 := by
      omega
    have e2 : (b1 % 16 * 4 + b2 / 64) % 4 * 64 + b2 % 64 = b2 := by omega
    rw [e0, e1, e2]

/-- The unpadded base64url encoding is injective on byte lists. -/
theorem base64urlEncode_inj (xs ys : List Nat) (hx : ∀ b ∈ xs, b < 256)
    (hy : ∀ b ∈ ys, b < 256) (h : base64urlEncode xs = base64urlEncode ys) :
    xs = ys := by
  have h2 := congrArg base64urlDecode h
  rwa [base64urlDecode_encode xs hx, base64urlDecode_encode ys hy] at h2

/-- Every byte of a serialized word is below 256. -/
theorem wordBytes_lt (w : Nat) : ∀ b ∈ wordBytes w, b < 256 := by
  intro b hb
  simp [wordBytes] at hb
  rcases hb with rfl | rfl | rfl | rfl <;> omega

/-- Every byte of a SHA-256 digest is below 256. -/
theorem sha256_lt (msg : List Nat) : ∀ b ∈ sha256 msg, b < 256 := by
  intro b hb
  simp only [sha256, stateBytes, List.mem_append] at hb
  rcases hb with ((((((h | h) | h) | h) | h) | h) | h) | h <;> exact wordBytes_lt _ _ h

/-- A SHA-256 digest is 32 bytes. -/
theorem sha256_length (msg : List Nat) : (sha256 msg).length = 32 := by
  simp [sha256, stateBytes, wordBytes]

/-- The character count of a string built from a character list. -/
theorem string_mk_length (cs : List Char) : (String.mk cs).length = cs.length := rfl

/-- C8: for 64 random bytes the verifier is their unpadded base64url
encoding, of length 86 — inside both the RFC window `[43, 128]` and the
spec's `86–88`; the challenge is the unpadded base64url encoding of the
SHA-256 of the verifier's ASCII bytes, of length 43; distinct random
draws always yield distinct verifiers, and challenges can only collide
on a SHA-256 collision of the verifiers (the formal content of
"different with overwhelming probability"). -/
theorem C8_pkce_generation :
    ∀ randomBytes : List Nat, randomBytes.length = 64 →
      (∀ b ∈ randomBytes, b < 256) →
      (43 ≤ (generatePKCEParams randomBytes).codeVerifier.length ∧
        (generatePKCEParams randomBytes).codeVerifier.length ≤ 128 ∧
        86 ≤ (generatePKCEParams randomBytes).codeVerifier.length ∧
        (generatePKCEParams randomBytes).codeVerifier.length ≤ 88) ∧
      (generatePKCEParams randomBytes).codeChallenge =
        String.mk (base64urlEncode
          (sha256 (asciiBytes (generatePKCEParams randomBytes).codeVerifier))) ∧
      (generatePKCEParams randomBytes).codeChallenge.length = 43 ∧
      (∀ otherBytes : List Nat, otherBytes.length = 64 →
        (∀ b ∈ otherBytes, b < 256) → otherBytes ≠ randomBytes →
        (generatePKCEParams otherBytes).codeVerifier ≠
          (generatePKCEParams randomBytes).codeVerifier) ∧
      (∀ otherBytes : List Nat,
        sha256 (asciiBytes (generatePKCEParams otherBytes).codeVerifier) ≠
          sha256 (asciiBytes (generatePKCEParams randomBytes).codeVerifier) →
        (generatePKCEParams otherBytes).codeChallenge ≠
          (generatePKCEParams randomBytes).codeChallenge) := by
  intro bs hlen hbound
  have hv : (generatePKCEParams bs).codeVerifier.length = 86 := by
    show (String.mk (base64urlEncode bs)).length = 86
    rw [string_mk_length, base64urlEncode_length, hlen]
  refine ⟨⟨by omega, by omega, by omega, by omega⟩, rfl, ?_, ?_, ?_⟩
  · show (String.mk (base64urlEncode
      (sha256 (asciiBytes (generatePKCEParams bs).codeVerifier)))).length = 43
    rw [string_mk_length, base64urlEncode_length, sha256_length]
  · intro os holen hobound hne heq
    apply hne
    have hdata : base64urlEncode os = base64urlEncode bs := congrArg String.data heq
    exact base64urlEncode_inj os bs hobound hbound hdata
  · intro os hsha heq
    apply hsha
    have hdata :
        base64urlEncode (sha256 (asciiBytes (generatePKCEParams os).codeVerifier)) =
          base64urlEncode (sha256 (asciiBytes (generatePKCEParams bs).codeVerifier)) :=
      congrArg String.data heq
    exact base64urlEncode_inj _ _ (sha256_lt _) (sha256_lt _) hdata

/-- Witness for C8: two concrete distinct 64-byte draws. -/
theorem C8_pkce_generation_witness :
    ((List.replicate 64 0).length = 64 ∧ (∀ b ∈ List.replicate 64 (0 : Nat), b < 256) ∧
      (List.replicate 64 1).length = 64 ∧ (∀ b ∈ List.replicate 64 (1 : Nat), b < 256) ∧
      List.replicate 64 (1 : Nat) ≠ List.replicate 64 0) ∧
    (43 ≤ (generatePKCEParams (List.replicate 64 0)).codeVerifier.length ∧
      (generatePKCEParams (List.replicate 64 0)).codeVerifier.length ≤ 128) ∧
    (generatePKCEParams (List.replicate 64 1)).codeVerifier ≠
      (generatePKCEParams (List.replicate 64 0)).codeVerifier := by
  have main := C8_pkce_generation (List.replicate 64 0) (by simp) (by simp)
  refine ⟨⟨by simp, by simp, by simp, by simp, by decide⟩,
    ⟨main.1.1, main.1.2.1⟩,
    main.2.2.2.1 (List.replicate 64 1) (by simp) (by simp) (by decide)⟩

/-- Witness for C10: expired credentials with a non-empty token are
accepted. -/
theorem C10_has_valid_credentials_witness :
    ((⟨"tok", "bearer", 7200, "", "public", 0⟩ : Credentials).accessToken ≠ "" ∧
      credentialsExpired ⟨"tok", "bearer", 7200, "", "public", 0⟩ 1000000000) ∧
    (HasValidCredentials (some ⟨"tok", "bearer", 7200, "", "public", 0⟩) = true ∧
      runLoginAlreadyLoggedIn (some ⟨"tok", "bearer", 7200, "", "public", 0⟩) = true) :=
  ⟨⟨by decide, by norm_num [credentialsExpired]⟩,
    C10_has_valid_credentials.2.2 ⟨"tok", "bearer", 7200, "", "public", 0⟩
      1000000000 (by decide) (by norm_num [credentialsExpired])⟩

end T42
